import Mathlib

/-!
# Veles logger (`libVeles/inc/veles/logger.h`)

A shallow embedding of the logging header: the `Logger::Color` enumeration,
the fallback logging macros, and `DefaultLogger::StripVelesNamespace`.

A `std::string` is modelled by the list of its characters.
-/

namespace Veles

/-- A `std::string` (or the contents of a C string up to its terminator). -/
abbrev CppString := List Char

/-- The literal `"Veles::"` searched for by `StripVelesNamespace`. -/
def kVelesPrefix : CppString := ['V', 'e', 'l', 'e', 's', ':', ':']

/-- Scan of `std::string::find`: `i` is the index of the head of the
remaining text; the first index at which `pat` starts is returned. -/
def findFrom (pat : CppString) : CppString → Nat → Option Nat
  | [], i => if pat.isPrefixOf [] then some i else none
  | c :: cs, i => if pat.isPrefixOf (c :: cs) then some i else findFrom pat cs (i + 1)

/-- The call `res.find(pat)`: position of the leftmost occurrence of `pat`,
`none` standing for `std::string::npos`. -/
def find (res pat : CppString) : Option Nat := findFrom pat res 0

/-- The call `res.erase(pos, n)`: removes `min(n, size - pos)` characters
starting at `pos`; `none` stands for the `std::out_of_range` exception thrown
when `pos > size`. -/
def erase (res : CppString) (pos n : Nat) : Option CppString :=
  if pos ≤ res.length then
    some (res.take pos ++ res.drop (pos + min n (res.length - pos)))
  else none

/-- The `while` loop of `StripVelesNamespace`, with `fuel` bounding the number
of executions of the loop body. `none` means that no value was returned:
the budget ran out, or `erase` threw inside the `noexcept` function. -/
def stripLoop : Nat → CppString → Option CppString
  | 0, res =>
    match find res kVelesPrefix with
    | none => some res
    | some _ => none
  | fuel + 1, res =>
    match find res kVelesPrefix with
    | none => some res
    | some pos => (erase res pos 7).bind (stripLoop fuel)

/-- The function `DefaultLogger::StripVelesNamespace(symbol)`, where `fuel`
bounds the number of loop iterations. -/
def StripVelesNamespace (fuel : Nat) (symbol : CppString) : Option CppString :=
  stripLoop fuel symbol

/-- A single left-to-right pass over the original text that deletes the
occurrences of `pat` present in it and never looks at its own output; `skip`
is the number of characters of a matched occurrence still to be dropped. -/
def singlePassFrom (pat : CppString) : CppString → Nat → CppString
  | [], _ => []
  | _ :: cs, skip + 1 => singlePassFrom pat cs skip
  | c :: cs, 0 =>
    if pat.isPrefixOf (c :: cs) then singlePassFrom pat cs (pat.length - 1)
    else c :: singlePassFrom pat cs 0

/-- Reference behaviour for comparison with `StripVelesNamespace`: one pass
deleting only the occurrences of `"Veles::"` present in the original string. -/
def singlePassStrip (symbol : CppString) : CppString :=
  singlePassFrom kVelesPrefix symbol 0

/-- The constructor of `DefaultLogger<T, C>`: it hands
`StripVelesNamespace(Demangle(typeid(T).name()))` and `GetColorByIndex(C)` to
the constructor of the base class. The base constructor `base`, `Demangle` and
`GetColorByIndex` are defined outside the header and are parameters here;
`typeidName` is `typeid(T).name()` and the template parameter `C` defaults
to `0`. -/
def DefaultLogger {L : Type} (base : CppString → CppString → L)
    (Demangle : CppString → CppString) (getColorByIndex : Nat → CppString)
    (fuel : Nat) (typeidName : CppString) (C : Nat := 0) : Option L :=
  (StripVelesNamespace fuel (Demangle typeidName)).map
    fun domain => base domain (getColorByIndex C)

/-! ## The palette enumeration -/

/-- The enumerators of `Logger::Color`. -/
inductive Color
  | COLOR_LIGHTRED
  | COLOR_RED
  | COLOR_LIGHTBLUE
  | COLOR_BLUE
  | COLOR_GREEN
  | COLOR_YELLOW
  | COLOR_ORANGE
  | COLOR_WHITE
  | COLOR_LIGHTCYAN
  | COLOR_CYAN
  | COLOR_RESET
  | COLOR_HIGH
  | COLOR_LIGHTVIOLET
  | COLOR_VIOLET
  deriving DecidableEq

/-- The enumerator list of `enum Color` as it is declared: every enumerator
with its initialiser, when it has one. -/
def Color.declaration : List (Color × Option Nat) :=
  [ (.COLOR_LIGHTRED, some 0),
    (.COLOR_RED, none),
    (.COLOR_LIGHTBLUE, none),
    (.COLOR_BLUE, none),
    (.COLOR_GREEN, none),
    (.COLOR_YELLOW, none),
    (.COLOR_ORANGE, none),
    (.COLOR_WHITE, none),
    (.COLOR_LIGHTCYAN, none),
    (.COLOR_CYAN, none),
    (.COLOR_RESET, none),
    (.COLOR_HIGH, none),
    (.COLOR_LIGHTVIOLET, none),
    (.COLOR_VIOLET, none) ]

/-- The value rule of a C++ enumeration: an enumerator has the value of its
initialiser, or one more than the previous enumerator (`next`; zero for the
first). -/
def enumValues {α : Type} : Nat → List (α × Option Nat) → List (α × Nat)
  | _, [] => []
  | _, (e, some v) :: rest => (e, v) :: enumValues (v + 1) rest
  | next, (e, none) :: rest => (e, next) :: enumValues (next + 1) rest

/-- The enumerators of `Logger::Color` with their numeric values. -/
def Color.values : List (Color × Nat) := enumValues 0 Color.declaration

/-- Modelled from the spec: `Logger::GetColorByIndex` is only declared in the
header, its body is missing. It maps an index into the fixed 14-entry palette
modulo the palette size. The table of colour strings `palette` is a parameter;
`none` would be an index outside the table. -/
def GetColorByIndex (palette : List CppString) (index : Nat) : Option CppString :=
  palette[index % 14]?

/-! ## The logger state in fallback mode -/

/-- The constant `Logger::kUnintializedLogDomain_`. -/
def kUnintializedLogDomain_ : Int := -1

/-- The data members of `Logger` when `EINA` is not defined. -/
structure Logger where
  log_domain_ : Int
  domain_str_ : CppString
  color_ : CppString
  deriving DecidableEq

/-- Modelled from the spec: the constructor `Logger(domain, color)`, whose
body is missing. Without a structured backend it initialises the domain name
and the colour, and the handle remains the sentinel. -/
def Logger.construct (domain color : CppString) : Logger :=
  { log_domain_ := kUnintializedLogDomain_, domain_str_ := domain, color_ := color }

/-- Modelled from the spec: `Logger::log_domain()`, whose body is missing,
returns the current handle. -/
def Logger.log_domain (self : Logger) : Int := self.log_domain_

/-- Modelled from the spec: `Logger::domain_str()`, whose body is missing,
returns the domain name. -/
def Logger.domain_str (self : Logger) : CppString := self.domain_str_

/-- Modelled from the spec: `Logger::color()`, whose body is missing, returns
the colour tag. -/
def Logger.color (self : Logger) : CppString := self.color_

/-- Modelled from the spec: `Logger::set_domain_str(value)`, whose body is
missing. Without a backend it is a pure update of the domain string. -/
def Logger.set_domain_str (self : Logger) (value : CppString) : Logger :=
  { self with domain_str_ := value }

/-! ## The fallback logging macros -/

/-- An argument of a variadic `fprintf` call. -/
inductive Arg
  | int (n : Int)
  | str (s : CppString)
  | chr (c : Char)
  deriving DecidableEq

/-- The text produced by the C library for a format string and its arguments:
ordinary characters are copied, and `%` starts a directive (`%%`, `%s`, `%d`,
`%c` are modelled). `none` stands for a directive that is not modelled or
whose argument is missing or of the wrong kind. -/
def formatted : CppString → List Arg → Option CppString
  | [], _ => some []
  | c :: rest, args =>
    if c ≠ '%' then (formatted rest args).map (c :: ·)
    else
      match rest, args with
      | '%' :: rest', args' => (formatted rest' args').map ('%' :: ·)
      | 's' :: rest', Arg.str s :: args' => (formatted rest' args').map (s ++ ·)
      | 'd' :: rest', Arg.int n :: args' =>
        (formatted rest' args').map ((toString n).toList ++ ·)
      | 'c' :: rest', Arg.chr x :: args' => (formatted rest' args').map (x :: ·)
      | _, _ => none

/-- The call `fprintf(stream, fmt, args...)` on a stream given by the text
written to it so far. -/
def fprintf (stream fmt : CppString) (args : List Arg) : Option CppString :=
  (formatted fmt args).map (stream ++ ·)

/-- The macro `FALLBACK_LOG(...)`:
`{ fprintf(stderr, __VA_ARGS__); fprintf(stderr, "\n"); }`. -/
def FALLBACK_LOG (stderr fmt : CppString) (args : List Arg) : Option CppString :=
  (fprintf stderr fmt args).bind fun out => fprintf out ['\n'] []

/-- The macro `#define DBG(...) FALLBACK_LOG(__VA_ARGS__)`. -/
def DBG (stderr fmt : CppString) (args : List Arg) : Option CppString :=
  FALLBACK_LOG stderr fmt args
/-- The macro `#define INF(...) FALLBACK_LOG(__VA_ARGS__)`. -/
def INF (stderr fmt : CppString) (args : List Arg) : Option CppString :=
  FALLBACK_LOG stderr fmt args
/-- The macro `#define WRN(...) FALLBACK_LOG(__VA_ARGS__)`. -/
def WRN (stderr fmt : CppString) (args : List Arg) : Option CppString :=
  FALLBACK_LOG stderr fmt args
/-- The macro `#define ERR(...) FALLBACK_LOG(__VA_ARGS__)`. -/
def ERR (stderr fmt : CppString) (args : List Arg) : Option CppString :=
  FALLBACK_LOG stderr fmt args
/-- The macro `#define CRT(...) FALLBACK_LOG(__VA_ARGS__)`. -/
def CRT (stderr fmt : CppString) (args : List Arg) : Option CppString :=
  FALLBACK_LOG stderr fmt args

/-- The macro `#define DBGI(x, ...) FALLBACK_LOG(__VA_ARGS__)`. -/
def DBGI {X : Type} (_x : X) (stderr fmt : CppString) (args : List Arg) : Option CppString :=
  FALLBACK_LOG stderr fmt args
/-- The macro `#define INFI(x, ...) FALLBACK_LOG(__VA_ARGS__)`. -/
def INFI {X : Type} (_x : X) (stderr fmt : CppString) (args : List Arg) : Option CppString :=
  FALLBACK_LOG stderr fmt args
/-- The macro `#define WRNI(x, ...) FALLBACK_LOG(__VA_ARGS__)`. -/
def WRNI {X : Type} (_x : X) (stderr fmt : CppString) (args : List Arg) : Option CppString :=
  FALLBACK_LOG stderr fmt args
/-- The macro `#define ERRI(x, ...) FALLBACK_LOG(__VA_ARGS__)`. -/
def ERRI {X : Type} (_x : X) (stderr fmt : CppString) (args : List Arg) : Option CppString :=
  FALLBACK_LOG stderr fmt args
/-- The macro `#define CRTI(x, ...) FALLBACK_LOG(__VA_ARGS__)`. -/
def CRTI {X : Type} (_x : X) (stderr fmt : CppString) (args : List Arg) : Option CppString :=
  FALLBACK_LOG stderr fmt args

/-- The macro `#define DBGC(x, ...) FALLBACK_LOG(__VA_ARGS__)`. -/
def DBGC {X : Type} (_x : X) (stderr fmt : CppString) (args : List Arg) : Option CppString :=
  FALLBACK_LOG stderr fmt args
/-- The macro `#define INFC(x, ...) FALLBACK_LOG(__VA_ARGS__)`. -/
def INFC {X : Type} (_x : X) (stderr fmt : CppString) (args : List Arg) : Option CppString :=
  FALLBACK_LOG stderr fmt args
/-- The macro `#define WRNC(x, ...) FALLBACK_LOG(__VA_ARGS__)`. -/
def WRNC {X : Type} (_x : X) (stderr fmt : CppString) (args : List Arg) : Option CppString :=
  FALLBACK_LOG stderr fmt args
/-- The macro `#define ERRC(x, ...) FALLBACK_LOG(__VA_ARGS__)`. -/
def ERRC {X : Type} (_x : X) (stderr fmt : CppString) (args : List Arg) : Option CppString :=
  FALLBACK_LOG stderr fmt args
/-- The macro `#define CRTC(x, ...) FALLBACK_LOG(__VA_ARGS__)`. -/
def CRTC {X : Type} (_x : X) (stderr fmt : CppString) (args : List Arg) : Option CppString :=
  FALLBACK_LOG stderr fmt args

end Veles

namespace Veles

/-! ## `find` and `erase` -/

theorem findFrom_eq_none_iff (pat s : CppString) (i : Nat) :
    findFrom pat s i = none ↔ ¬ pat <:+: s := by
  induction s generalizing i with
  | nil =>
    by_cases h : pat = [] <;> simp [findFrom, h]
  | cons c cs ih =>
    by_cases h : pat <+: c :: cs
    · simp [findFrom, h, List.infix_cons_iff]
    · simp [findFrom, h, List.infix_cons_iff, ih]

theorem find_eq_none_iff (s pat : CppString) : find s pat = none ↔ ¬ pat <:+: s :=
  findFrom_eq_none_iff pat s 0

theorem findFrom_eq_some (pat s : CppString) (i p : Nat) (h : findFrom pat s i = some p) :
    ∃ k, p = i + k ∧ pat <+: s.drop k ∧ ∀ j, j < k → ¬ pat <+: s.drop j := by
  induction s generalizing i with
  | nil =>
    by_cases hp : pat = []
    · refine ⟨0, ?_, ?_, ?_⟩ <;> simp_all [findFrom]
    · simp [findFrom, hp] at h
  | cons c cs ih =>
    by_cases hp : pat <+: c :: cs
    · refine ⟨0, ?_, ?_, ?_⟩ <;> simp_all [findFrom]
    · simp only [findFrom, List.isPrefixOf_iff_prefix, hp] at h
      obtain ⟨k, hk, hpre, hmin⟩ := ih (i + 1) (by simpa using h)
      refine ⟨k + 1, by omega, by simpa using hpre, ?_⟩
      intro j hj
      cases j with
      | zero => simpa using hp
      | succ j => simpa using hmin j (by omega)

theorem find_eq_some (s pat : CppString) (pos : Nat) (h : find s pat = some pos) :
    pat <+: s.drop pos ∧ pos + pat.length ≤ s.length ∧ ∀ j, j < pos → ¬ pat <+: s.drop j := by
  obtain ⟨k, hk, hpre, hmin⟩ := findFrom_eq_some pat s 0 pos h
  have hpos : pos = k := by omega
  subst hpos
  refine ⟨hpre, ?_, hmin⟩
  have hlen := hpre.length_le
  rw [List.length_drop] at hlen
  by_cases hp : pat.length = 0
  · have hnil : pat = [] := List.length_eq_zero.mp hp
    by_contra hcon
    have hlt : s.length < pos := by omega
    exact hmin s.length hlt (by simp [hnil])
  · omega

theorem kVelesPrefix_length : kVelesPrefix.length = 7 := rfl

theorem erase_found (s : CppString) (pos : Nat) (h : find s kVelesPrefix = some pos) :
    erase s pos 7 = some (s.take pos ++ s.drop (pos + 7)) ∧
      (s.take pos ++ s.drop (pos + 7)).length + 7 = s.length := by
  obtain ⟨-, hle, -⟩ := find_eq_some s kVelesPrefix pos h
  rw [kVelesPrefix_length] at hle
  have hmin : min 7 (s.length - pos) = 7 := by omega
  refine ⟨?_, ?_⟩
  · have hpos : pos ≤ s.length := by omega
    simp [erase, hpos, hmin]
  · simp only [List.length_append, List.length_take, List.length_drop]
    omega

/-! ## The stripping loop -/

theorem stripLoop_of_absent (fuel : Nat) (s : CppString) (h : ¬ kVelesPrefix <:+: s) :
    stripLoop fuel s = some s := by
  have hf : find s kVelesPrefix = none := (find_eq_none_iff s kVelesPrefix).mpr h
  cases fuel <;> simp [stripLoop, hf]

theorem stripLoop_some_absent (fuel : Nat) (s r : CppString)
    (h : stripLoop fuel s = some r) : ¬ kVelesPrefix <:+: r := by
  induction fuel generalizing s with
  | zero =>
    cases hf : find s kVelesPrefix with
    | none =>
      simp [stripLoop, hf] at h
      subst h
      exact (find_eq_none_iff _ _).mp hf
    | some pos => simp [stripLoop, hf] at h
  | succ n ih =>
    cases hf : find s kVelesPrefix with
    | none =>
      simp [stripLoop, hf] at h
      subst h
      exact (find_eq_none_iff _ _).mp hf
    | some pos =>
      simp only [stripLoop, hf, (erase_found s pos hf).1, Option.some_bind] at h
      exact ih _ h

theorem stripLoop_total (fuel : Nat) (s : CppString) (h : s.length / 7 ≤ fuel) :
    ∃ r, stripLoop fuel s = some r := by
  induction fuel generalizing s with
  | zero =>
    cases hf : find s kVelesPrefix with
    | none => exact ⟨s, by simp [stripLoop, hf]⟩
    | some pos =>
      have := (erase_found s pos hf).2
      omega
  | succ n ih =>
    cases hf : find s kVelesPrefix with
    | none => exact ⟨s, by simp [stripLoop, hf]⟩
    | some pos =>
      obtain ⟨he, hlen⟩ := erase_found s pos hf
      obtain ⟨r, hr⟩ := ih (s.take pos ++ s.drop (pos + 7)) (by omega)
      exact ⟨r, by simp only [stripLoop, hf, he, Option.some_bind, hr]⟩

theorem stripLoop_fuel_mono (fuel k : Nat) (s r : CppString)
    (h : stripLoop fuel s = some r) : stripLoop (fuel + k) s = some r := by
  induction fuel generalizing s with
  | zero =>
    cases hf : find s kVelesPrefix with
    | none =>
      simp [stripLoop, hf] at h
      subst h
      exact stripLoop_of_absent _ _ ((find_eq_none_iff _ _).mp hf)
    | some pos => simp [stripLoop, hf] at h
  | succ n ih =>
    rw [Nat.add_right_comm]
    cases hf : find s kVelesPrefix with
    | none =>
      simp [stripLoop, hf] at h
      subst h
      simp [stripLoop, hf]
    | some pos =>
      simp only [stripLoop, hf, (erase_found s pos hf).1, Option.some_bind] at h ⊢
      exact ih _ h

theorem formatted_of_no_percent (m : CppString) (args : List Arg) (h : '%' ∉ m) :
    formatted m args = some m := by
  induction m with
  | nil => rfl
  | cons c cs ih =>
    have hc : c ≠ '%' := fun e => h (by simp [e])
    have hcs : '%' ∉ cs := fun e => h (by simp [e])
    unfold formatted
    simp [hc, ih hcs]

theorem FALLBACK_LOG_plain (stderr m : CppString) (args : List Arg) (h : '%' ∉ m) :
    FALLBACK_LOG stderr m args = some (stderr ++ m ++ ['\n']) := by
  simp [FALLBACK_LOG, fprintf, formatted_of_no_percent m args h, formatted]

theorem foldl_set_domain_str (values : List CppString) (l : Logger) :
    (values.foldl Logger.set_domain_str l).log_domain_ = l.log_domain_ ∧
      (values.foldl Logger.set_domain_str l).color_ = l.color_ ∧
      (values.foldl Logger.set_domain_str l).domain_str_ = values.getLast?.getD l.domain_str_ := by
  induction values generalizing l with
  | nil => simp
  | cons v vs ih =>
    obtain ⟨h1, h2, h3⟩ := ih (l.set_domain_str v)
    refine ⟨by simpa [Logger.set_domain_str] using h1, by simpa [Logger.set_domain_str] using h2, ?_⟩
    rw [List.foldl_cons, h3]
    cases vs with
    | nil => simp [Logger.set_domain_str]
    | cons w ws =>
      rw [List.getLast?_cons_cons, List.getLast?_eq_getLast (w :: ws) (by simp)]
      simp

/-! ## Properties stated by the specification -/

/-- C1: for every input string, `StripVelesNamespace` returns (with any
iteration budget of at least a seventh of the length) a string in which
`"Veles::"` does not occur any more. -/
theorem StripVelesNamespace_no_occurrence (s : CppString) (k : Nat) :
    kVelesPrefix = "Veles::".toList ∧
      ∃ r, StripVelesNamespace (s.length / 7 + k) s = some r ∧ ¬ kVelesPrefix <:+: r := by
  refine ⟨rfl, ?_⟩
  obtain ⟨r, hr⟩ := stripLoop_total (s.length / 7 + k) s (by omega)
  exact ⟨r, hr, stripLoop_some_absent _ s r hr⟩

/-- C2: when `"Veles::"` does not occur in `s`, `StripVelesNamespace` applied to
`"Veles::" ++ s` returns exactly `s` after one iteration of its loop. -/
theorem StripVelesNamespace_prefixed (s : CppString) (h : ¬ kVelesPrefix <:+: s)
    (fuel : Nat) : StripVelesNamespace (fuel + 1) ("Veles::".toList ++ s) = some s := by
  have hf : find ("Veles::".toList ++ s) kVelesPrefix = some 0 := by
    cases s <;> rfl
  have he : erase ("Veles::".toList ++ s) 0 7 = some s := by
    simp [erase]
  simp only [StripVelesNamespace, stripLoop, hf, he, Option.some_bind]
  exact stripLoop_of_absent fuel s h

/-- Witness of C2: the demangled name `"Veles::Widget"` yields the domain
`"Widget"`. -/
theorem StripVelesNamespace_prefixed_witness :
    ¬ kVelesPrefix <:+: "Widget".toList ∧
      StripVelesNamespace 1 "Veles::Widget".toList = some "Widget".toList :=
  ⟨by decide, StripVelesNamespace_prefixed "Widget".toList (by decide) 0⟩

/-- C3: the constructor of `DefaultLogger<T, C>` calls the base constructor
with the domain `StripVelesNamespace(Demangle(typeid(T).name()))` and the
colour `GetColorByIndex(C)`; an omitted `C` is `0`, and for `C = 2` the colour
is `GetColorByIndex(2)`. -/
theorem DefaultLogger_constructor {L : Type} (base : CppString → CppString → L)
    (Demangle : CppString → CppString) (getColorByIndex : Nat → CppString)
    (typeidName : CppString) (C k : Nat) :
    ∃ domain,
      StripVelesNamespace ((Demangle typeidName).length / 7 + k) (Demangle typeidName)
          = some domain ∧
      DefaultLogger base Demangle getColorByIndex ((Demangle typeidName).length / 7 + k)
          typeidName C = some (base domain (getColorByIndex C)) ∧
      DefaultLogger base Demangle getColorByIndex ((Demangle typeidName).length / 7 + k)
          typeidName = some (base domain (getColorByIndex 0)) ∧
      DefaultLogger base Demangle getColorByIndex ((Demangle typeidName).length / 7 + k)
          typeidName 2 = some (base domain (getColorByIndex 2)) := by
  obtain ⟨r, hr⟩ := stripLoop_total ((Demangle typeidName).length / 7 + k)
    (Demangle typeidName) (by omega)
  refine ⟨r, hr, ?_, ?_, ?_⟩ <;>
    simp only [DefaultLogger, StripVelesNamespace, hr, Option.map_some']

/-- C4: in fallback mode each of the fifteen logging macros, called with a
message `m` that holds no format directive, appends exactly `m` and one
newline to standard error, whatever the argument `x` of the `...I` and `...C`
forms is. -/
theorem fallback_macros_output {X Y : Type} (x : X) (y : Y) (stderr m : CppString)
    (args : List Arg) (h : '%' ∉ m) :
    DBG stderr m args = some (stderr ++ m ++ ['\n']) ∧
      INF stderr m args = some (stderr ++ m ++ ['\n']) ∧
      WRN stderr m args = some (stderr ++ m ++ ['\n']) ∧
      ERR stderr m args = some (stderr ++ m ++ ['\n']) ∧
      CRT stderr m args = some (stderr ++ m ++ ['\n']) ∧
      DBGI x stderr m args = some (stderr ++ m ++ ['\n']) ∧
      INFI x stderr m args = some (stderr ++ m ++ ['\n']) ∧
      WRNI x stderr m args = some (stderr ++ m ++ ['\n']) ∧
      ERRI x stderr m args = some (stderr ++ m ++ ['\n']) ∧
      CRTI x stderr m args = some (stderr ++ m ++ ['\n']) ∧
      DBGC y stderr m args = some (stderr ++ m ++ ['\n']) ∧
      INFC y stderr m args = some (stderr ++ m ++ ['\n']) ∧
      WRNC y stderr m args = some (stderr ++ m ++ ['\n']) ∧
      ERRC y stderr m args = some (stderr ++ m ++ ['\n']) ∧
      CRTC y stderr m args = some (stderr ++ m ++ ['\n']) := by
  have hlog := FALLBACK_LOG_plain stderr m args h
  simp only [DBG, INF, WRN, ERR, CRT, DBGI, INFI, WRNI, ERRI, CRTI, DBGC, INFC, WRNC, ERRC,
    CRTC, hlog, and_self]

/-- Witness of C4: `ERR("connection lost")` writes `"connection lost\n"`. -/
theorem fallback_macros_output_witness :
    '%' ∉ "connection lost".toList ∧
      ERR [] "connection lost".toList [] = some "connection lost\n".toList :=
  ⟨by decide,
    (fallback_macros_output () () [] "connection lost".toList [] (by decide)).2.2.2.1⟩

/-- C5: for a palette table of 14 entries, `GetColorByIndex(i)` returns a
colour for every index `i`, the same one as `GetColorByIndex(i mod 14)`. -/
theorem GetColorByIndex_mod (palette : List CppString) (h : palette.length = 14) (i : Nat) :
    ∃ color, GetColorByIndex palette i = some color ∧
      GetColorByIndex palette (i % 14) = some color := by
  have hlt : i % 14 < palette.length := by omega
  refine ⟨palette[i % 14], ?_, ?_⟩
  · simp [GetColorByIndex, List.getElem?_eq_getElem hlt]
  · simp [GetColorByIndex, Nat.mod_mod, List.getElem?_eq_getElem hlt]

/-- Witness of C5: index 16 on a table of 14 one-letter colours. -/
theorem GetColorByIndex_mod_witness :
    ("abcdefghijklmn".toList.map fun c => [c]).length = 14 ∧
      ∃ color, GetColorByIndex ("abcdefghijklmn".toList.map fun c => [c]) 16 = some color ∧
        GetColorByIndex ("abcdefghijklmn".toList.map fun c => [c]) (16 % 14) = some color :=
  ⟨by decide, GetColorByIndex_mod ("abcdefghijklmn".toList.map fun c => [c]) (by decide) 16⟩

/-- C6: `Logger::Color` has exactly 14 enumerators, valued 0 to 13 in
declaration order from `COLOR_LIGHTRED` to `COLOR_VIOLET`, pairwise distinct,
so that for every index `i` exactly one enumerator has the value `i mod 14`. -/
theorem Color_values :
    Color.values =
        [ (.COLOR_LIGHTRED, 0), (.COLOR_RED, 1), (.COLOR_LIGHTBLUE, 2), (.COLOR_BLUE, 3),
          (.COLOR_GREEN, 4), (.COLOR_YELLOW, 5), (.COLOR_ORANGE, 6), (.COLOR_WHITE, 7),
          (.COLOR_LIGHTCYAN, 8), (.COLOR_CYAN, 9), (.COLOR_RESET, 10), (.COLOR_HIGH, 11),
          (.COLOR_LIGHTVIOLET, 12), (.COLOR_VIOLET, 13) ] ∧
      Color.values.length = 14 ∧
      Color.values.map Prod.snd = List.range 14 ∧
      (Color.values.map Prod.snd).Nodup ∧
      (Color.values.map Prod.fst).Nodup ∧
      (∀ c : Color, c ∈ Color.values.map Prod.fst) ∧
      ∀ i : Nat, ∃! e, e ∈ Color.values ∧ e.2 = i % 14 := by
  refine ⟨by decide, by decide, by decide, by decide, by decide, ?_, ?_⟩
  · intro c
    cases c <;> decide
  · intro i
    have hlt : i % 14 < 14 := Nat.mod_lt _ (by decide)
    generalize i % 14 = j at hlt
    have hval : Color.values =
        [ (.COLOR_LIGHTRED, 0), (.COLOR_RED, 1), (.COLOR_LIGHTBLUE, 2), (.COLOR_BLUE, 3),
          (.COLOR_GREEN, 4), (.COLOR_YELLOW, 5), (.COLOR_ORANGE, 6), (.COLOR_WHITE, 7),
          (.COLOR_LIGHTCYAN, 8), (.COLOR_CYAN, 9), (.COLOR_RESET, 10), (.COLOR_HIGH, 11),
          (.COLOR_LIGHTVIOLET, 12), (.COLOR_VIOLET, 13) ] := by decide
    rw [hval]
    interval_cases j <;>
      simp [ExistsUnique]

/-- C7: in fallback mode, whatever sequence of `set_domain_str` calls is
applied to a logger, `log_domain()` is unchanged, and for a constructed logger
it is the sentinel `kUnintializedLogDomain_ = -1`; the calls change the domain
string only. -/
theorem log_domain_sentinel (domain color : CppString) (values : List CppString)
    (l : Logger) :
    kUnintializedLogDomain_ = -1 ∧
      (values.foldl Logger.set_domain_str (Logger.construct domain color)).log_domain = -1 ∧
      (values.foldl Logger.set_domain_str l).log_domain = l.log_domain ∧
      (values.foldl Logger.set_domain_str l).color = l.color ∧
      (values.foldl Logger.set_domain_str l).domain_str
        = values.getLast?.getD l.domain_str := by
  obtain ⟨h1, h2, h3⟩ := foldl_set_domain_str values l
  obtain ⟨g1, -, -⟩ := foldl_set_domain_str values (Logger.construct domain color)
  refine ⟨rfl, ?_, h1, h2, h3⟩
  simp only [Logger.log_domain, g1]
  rfl

/-- C8: every iteration of the loop of `StripVelesNamespace` erases exactly 7
characters at the position found, so the length decreases by 7, and the
function returns after at most `length / 7` iterations. -/
theorem StripVelesNamespace_terminates (s : CppString) :
    (∀ pos, find s kVelesPrefix = some pos →
        kVelesPrefix <+: s.drop pos ∧
        erase s pos 7 = some (s.take pos ++ s.drop (pos + 7)) ∧
        (s.take pos ++ s.drop (pos + 7)).length + 7 = s.length ∧
        (s.take pos ++ s.drop (pos + 7)).length < s.length) ∧
      ∃ r, StripVelesNamespace (s.length / 7) s = some r := by
  refine ⟨?_, stripLoop_total _ s (le_refl _)⟩
  intro pos hf
  obtain ⟨he, hlen⟩ := erase_found s pos hf
  exact ⟨(find_eq_some s kVelesPrefix pos hf).1, he, hlen, by omega⟩

/-- Witness of C8: in `"aVeles::b"` the occurrence is found at position 1. -/
theorem StripVelesNamespace_terminates_witness :
    find "aVeles::b".toList kVelesPrefix = some 1 ∧
      erase "aVeles::b".toList 1 7 = some "ab".toList ∧
      StripVelesNamespace ("aVeles::b".toList.length / 7) "aVeles::b".toList
        = some "ab".toList := by
  have h := StripVelesNamespace_terminates "aVeles::b".toList
  refine ⟨by decide, ?_, by decide⟩
  exact (h.1 1 (by decide)).2.1

/-- C9: `StripVelesNamespace` returns unchanged a string in which `"Veles::"`
does not occur, and applying it to its own result returns that result
again. -/
theorem StripVelesNamespace_idempotent (s : CppString) :
    (¬ kVelesPrefix <:+: s → ∀ fuel, StripVelesNamespace fuel s = some s) ∧
      ∀ k, ∃ r, StripVelesNamespace (s.length / 7 + k) s = some r ∧
        ∀ fuel, StripVelesNamespace fuel r = some r ∧
          (StripVelesNamespace (s.length / 7 + k) s).bind (StripVelesNamespace fuel)
            = StripVelesNamespace (s.length / 7 + k) s := by
  refine ⟨fun h fuel => stripLoop_of_absent fuel s h, ?_⟩
  intro k
  obtain ⟨r, hr⟩ := stripLoop_total (s.length / 7 + k) s (by omega)
  have hno := stripLoop_some_absent _ s r hr
  refine ⟨r, hr, fun fuel => ?_⟩
  have hid : StripVelesNamespace fuel r = some r := stripLoop_of_absent fuel r hno
  refine ⟨hid, ?_⟩
  simp only [StripVelesNamespace] at hid ⊢
  rw [hr, Option.some_bind]
  exact hid

/-- Witness of C9: `"MyNamespace::Widget"` is returned unchanged. -/
theorem StripVelesNamespace_idempotent_witness :
    ¬ kVelesPrefix <:+: "MyNamespace::Widget".toList ∧
      StripVelesNamespace 0 "MyNamespace::Widget".toList = some "MyNamespace::Widget".toList :=
  ⟨by decide, (StripVelesNamespace_idempotent "MyNamespace::Widget".toList).1 (by decide) 0⟩

/-- C10: `StripVelesNamespace` erases the leftmost occurrence and scans again
from the start, so it removes occurrences created by an erasure: on
`"VeVeles::les::X"` it returns `"X"` (after two iterations), while a single
pass over the original string gives `"Veles::X"`. -/
theorem StripVelesNamespace_rescans :
    (∀ (s : CppString) (pos fuel : Nat), find s kVelesPrefix = some pos →
        (∀ j, j < pos → ¬ kVelesPrefix <+: s.drop j) ∧
        StripVelesNamespace (fuel + 1) s
          = StripVelesNamespace fuel (s.take pos ++ s.drop (pos + 7))) ∧
      (∀ k, StripVelesNamespace (2 + k) "VeVeles::les::X".toList = some "X".toList) ∧
      singlePassStrip "VeVeles::les::X".toList = "Veles::X".toList ∧
      ∃ s, ∀ k, StripVelesNamespace (s.length / 7 + k) s ≠ some (singlePassStrip s) := by
  refine ⟨?_, ?_, by decide, "VeVeles::les::X".toList, ?_⟩
  · intro s pos fuel hf
    refine ⟨(find_eq_some s kVelesPrefix pos hf).2.2, ?_⟩
    simp only [StripVelesNamespace, stripLoop, hf, (erase_found s pos hf).1, Option.some_bind]
  · intro k
    exact stripLoop_fuel_mono 2 k _ _ (by decide)
  · intro k
    have h : StripVelesNamespace (2 + k) "VeVeles::les::X".toList = some "X".toList :=
      stripLoop_fuel_mono 2 k _ _ (by decide)
    have hlen : "VeVeles::les::X".toList.length / 7 = 2 := by decide
    rw [hlen, h]
    decide

/-- Witness of C10: the first iteration on `"VeVeles::les::X"` erases the
occurrence at position 2 and continues on `"Veles::X"`. -/
theorem StripVelesNamespace_rescans_witness :
    find "VeVeles::les::X".toList kVelesPrefix = some 2 ∧
      StripVelesNamespace 2 "VeVeles::les::X".toList
        = StripVelesNamespace 1 "Veles::X".toList :=
  ⟨by decide, (StripVelesNamespace_rescans.1 "VeVeles::les::X".toList 2 1 (by decide)).2⟩

end Veles
